import Mathlib

/-!
Shallow embedding of ucms_core (src/ucms_core/src/lib.rs): the generic
versioned document value type and the storage operations implemented for
Vec<Document<T>>, modelled over List.

Machine integers: `id` is usize and `created_at`/`modified_at` are u64; no
arithmetic is performed on them, so they are plain Nat.  `version` is a u32
and `update` computes `self.version + 1`, so its width matters: the primary
model wraps the increment modulo 2^32 (the defined behaviour when Rust's
overflow checks are off), and `Checked` variants return `none` exactly where
a build with overflow checks panics (the overflowing `+`, and `Vec::remove`
on an out-of-bounds index).
-/

/-- 2^32, the modulus of Rust's u32 (the type of Document.version). -/
def U32MOD : Nat := 4294967296

/-- The Document<T> struct of lib.rs: id (usize), content (T),
created_at (u64), modified_at (Option<u64>), version (u32). -/
structure Document (T : Type) where
  id : Nat
  content : T
  created_at : Nat
  modified_at : Option Nat
  version : Nat
deriving DecidableEq

variable {T : Type}

/-- Document::new(id, content, created_at). -/
def Document.new (id : Nat) (content : T) (created_at : Nat) : Document T :=
  { id := id, content := content, created_at := created_at,
    modified_at := none, version := 0 }

/-- Document::update(&self, content, modified_at): same id and created_at,
new content, modified_at wrapped in Some, version incremented on the u32
(wrapping semantics of the increment). -/
def Document.update (d : Document T) (content : T) (modified_at : Nat) :
    Document T :=
  { id := d.id, content := content, created_at := d.created_at,
    modified_at := some modified_at, version := (d.version + 1) % U32MOD }

/-- Document::update under overflow checks: `self.version + 1` panics
(modelled as `none`) when the increment does not fit in a u32. -/
def Document.updateChecked (d : Document T) (content : T) (modified_at : Nat) :
    Option (Document T) :=
  if d.version + 1 < U32MOD then some (d.update content modified_at) else none

/-- Debug rendering of Option<u64>, as used for the modified_at field. -/
def fmtModified : Option Nat → String
  | none => "None"
  | some t => "Some(" ++ toString t ++ ")"

/-- The Display impl for Document<T>: all five fields in declaration order,
content rendered by T's own Display (passed in as `render`). -/
def Document.display (render : T → String) (d : Document T) : String :=
  "Document \x7b id: " ++ toString d.id ++ ", content: " ++ render d.content ++
    ", created_at: " ++ toString d.created_at ++ ", modified_at: " ++
    fmtModified d.modified_at ++ ", version: " ++ toString d.version ++ " \x7d"

/-- Storage::add for Vec<Document<T>>: Vec::push, i.e. append at the end. -/
def Storage.add (s : List (Document T)) (d : Document T) :
    List (Document T) :=
  s ++ [d]

/-- Storage::get for Vec<Document<T>>:
self.iter().find(|doc| doc.id == id). -/
def Storage.get (s : List (Document T)) (id : Nat) : Option (Document T) :=
  s.find? (fun doc => doc.id == id)

/-- Storage::update for Vec<Document<T>>: find the first document with the
given id via iter_mut().find, overwrite it in place with its
Document::update, and report success. -/
def Storage.update (s : List (Document T)) (id : Nat) (content : T)
    (modified_at : Nat) : List (Document T) × Bool :=
  match s with
  | [] => ([], false)
  | doc :: rest =>
    if doc.id == id then (doc.update content modified_at :: rest, true)
    else
      let r := Storage.update rest id content modified_at
      (doc :: r.1, r.2)

/-- Storage::update under overflow checks: the write through the found
document performs the checked increment of Document.updateChecked. -/
def Storage.updateChecked (s : List (Document T)) (id : Nat) (content : T)
    (modified_at : Nat) : Option (List (Document T) × Bool) :=
  match s with
  | [] => some ([], false)
  | doc :: rest =>
    if doc.id == id then
      match doc.updateChecked content modified_at with
      | some d2 => some (d2 :: rest, true)
      | none => none
    else
      match Storage.updateChecked rest id content modified_at with
      | some r => some (doc :: r.1, r.2)
      | none => none

/-- Iterator::position(|doc| p doc): index of the first element satisfying
p, in traversal order. -/
def positionIdx (p : α → Bool) : List α → Option Nat
  | [] => none
  | a :: l => if p a then some 0 else (positionIdx p l).map (fun i => i + 1)

/-- Storage::delete for Vec<Document<T>>: position of the first matching
document, then Vec::remove at that index (shifting later elements left). -/
def Storage.delete (s : List (Document T)) (id : Nat) :
    List (Document T) × Bool :=
  match positionIdx (fun doc => doc.id == id) s with
  | some i => (s.eraseIdx i, true)
  | none => (s, false)

/-- Vec::remove(i): panics (modelled as `none`) when i is out of bounds. -/
def removeChecked (s : List α) (i : Nat) : Option (List α) :=
  if i < s.length then some (s.eraseIdx i) else none

/-- Storage::delete with Vec::remove's bounds panic made explicit. -/
def Storage.deleteChecked (s : List (Document T)) (id : Nat) :
    Option (List (Document T) × Bool) :=
  match positionIdx (fun doc => doc.id == id) s with
  | some i =>
    match removeChecked s i with
    | some s2 => some (s2, true)
    | none => none
  | none => some (s, false)

/-- A finite sequence of Document::update calls, each supplying a content
and a modified_at timestamp, applied left to right. -/
def applyUpdates (d : Document T) : List (T × Nat) → Document T
  | [] => d
  | u :: us => applyUpdates (d.update u.1 u.2) us

/-- The four operations of the Storage<T> trait, as syntax. -/
inductive StorageOp (T : Type) where
  | add (d : Document T)
  | get (id : Nat)
  | update (id : Nat) (content : T) (modified_at : Nat)
  | delete (id : Nat)

/-- The result an operation hands back to the caller. -/
inductive StorageRes (T : Type) where
  | unit
  | found (d : Option (Document T))
  | ok (b : Bool)

/-- One step of the Vec<Document<T>> storage: the state after the call and
the returned value.  `get` takes the vector by shared reference (&self), so
its state component is the input state itself. -/
def runOp (s : List (Document T)) : StorageOp T → List (Document T) × StorageRes T
  | .add d => (Storage.add s d, .unit)
  | .get k => (s, .found (Storage.get s k))
  | .update k c t =>
    ((Storage.update s k c t).1, .ok (Storage.update s k c t).2)
  | .delete k => ((Storage.delete s k).1, .ok (Storage.delete s k).2)

/-- A document whose version holds u32::MAX, the largest representable
value of the version counter. -/
def docMax : Document String :=
  { id := 1, content := "x", created_at := 0, modified_at := some 0,
    version := U32MOD - 1 }

/-- C2: Document::new(id, content, created_at) yields exactly those id,
content and created_at, with version 0 and modified_at absent. -/
theorem C2_theorem (id : Nat) (c : T) (ca : Nat) :
    (Document.new id c ca).id = id ∧ (Document.new id c ca).content = c ∧
      (Document.new id c ca).created_at = ca ∧
      (Document.new id c ca).version = 0 ∧
      (Document.new id c ca).modified_at = none :=
  ⟨rfl, rfl, rfl, rfl, rfl⟩

/-- C9: get returns the storage state unchanged, and two consecutive gets
on the unmodified storage return equal results. -/
theorem C9_theorem (s : List (Document T)) (k : Nat) :
    (runOp s (StorageOp.get k)).1 = s ∧
      (runOp ((runOp s (StorageOp.get k)).1) (StorageOp.get k)).2 =
        (runOp s (StorageOp.get k)).2 :=
  ⟨rfl, rfl⟩

/-- C8: the rendering lists id, content, created_at, modified_at, version
in that order, prints modified_at as None or Some(v), and reproduces the
two golden outputs of the test suite. -/
theorem C8_theorem :
    fmtModified none = "None" ∧
      (∀ n : Nat, fmtModified (some n) = "Some(" ++ toString n ++ ")") ∧
      Document.display (fun s => s) (Document.new 1 "Hello, world!" 0) =
        "Document \x7b id: 1, content: Hello, world!, created_at: 0, modified_at: None, version: 0 \x7d" ∧
      Document.display (fun s => s)
          ((Document.new 1 "Hello, world!" 0).update "Hello, Rust!" 1) =
        "Document \x7b id: 1, content: Hello, Rust!, created_at: 0, modified_at: Some(1), version: 1 \x7d" :=
  ⟨rfl, fun _ => rfl, rfl, rfl⟩

/-- C1 as written is false at version = u32::MAX: the u32 increment wraps
the new version to 0 (and panics instead under overflow checks), so it is
not docMax.version + 1. -/
theorem C1_counterexample :
    ¬ (docMax.update "y" 5).version = docMax.version + 1 := by
  decide

/-- C1 (amended): whenever d.version + 1 fits in a u32, update returns a
document with the same id and created_at, the given content, modified_at
wrapped in Some, and version d.version + 1. -/
theorem C1_theorem (d : Document T) (c : T) (t : Nat)
    (h : d.version + 1 < U32MOD) :
    (d.update c t).id = d.id ∧ (d.update c t).created_at = d.created_at ∧
      (d.update c t).content = c ∧ (d.update c t).modified_at = some t ∧
      (d.update c t).version = d.version + 1 := by
  refine ⟨rfl, rfl, rfl, rfl, ?_⟩
  simp [Document.update, Nat.mod_eq_of_lt h]

/-- C1 witness: the amended claim at a concrete document. -/
theorem C1_witness :
    ((Document.new 1 "a" 0).update "b" 3).id = (Document.new 1 "a" 0).id ∧
      ((Document.new 1 "a" 0).update "b" 3).created_at =
        (Document.new 1 "a" 0).created_at ∧
      ((Document.new 1 "a" 0).update "b" 3).content = "b" ∧
      ((Document.new 1 "a" 0).update "b" 3).modified_at = some 3 ∧
      ((Document.new 1 "a" 0).update "b" 3).version =
        (Document.new 1 "a" 0).version + 1 :=
  C1_theorem (Document.new 1 "a" 0) "b" 3 (by decide)

/-- get misses exactly when no stored document carries the id. -/
theorem get_none_iff (s : List (Document T)) (k : Nat) :
    Storage.get s k = none ↔ ∀ e ∈ s, e.id ≠ k := by
  simp [Storage.get, List.find?_eq_none]

/-- get hits exactly the first document with the id: the hit splits the
list into a prefix free of the id, the hit itself, and a suffix. -/
theorem get_some_iff (s : List (Document T)) (k : Nat) (d : Document T) :
    Storage.get s k = some d ↔
      d.id = k ∧ ∃ l1 l2, s = l1 ++ d :: l2 ∧ ∀ e ∈ l1, e.id ≠ k := by
  induction s with
  | nil =>
    constructor
    · intro h
      exact absurd h (by simp [Storage.get])
    · rintro ⟨-, l1, l2, h, -⟩
      cases l1 <;> simp_all
  | cons a s ih =>
    by_cases ha : a.id = k
    · rw [Storage.get, List.find?_cons_of_pos _ (by simpa using ha)]
      constructor
      · rintro h
        obtain rfl : a = d := by simpa using h
        exact ⟨ha, [], s, rfl, by simp⟩
      · rintro ⟨hd, l1, l2, hs, hl1⟩
        match l1, hs with
        | [], hs =>
          injection hs with h1 h2
          simp [h1]
        | b :: l1, hs =>
          injection hs with h1 h2
          exact absurd (show b.id = k by rw [← h1]; exact ha) (hl1 b (by simp))
    · rw [Storage.get, List.find?_cons_of_neg _ (by simpa using ha)]
      rw [show (List.find? (fun doc => doc.id == k) s) = Storage.get s k from rfl, ih]
      constructor
      · rintro ⟨hd, l1, l2, rfl, hl1⟩
        exact ⟨hd, a :: l1, l2, rfl, by simpa using And.intro ha hl1⟩
      · rintro ⟨hd, l1, l2, hs, hl1⟩
        match l1, hs with
        | [], hs =>
          injection hs with h1 h2
          exact absurd (show a.id = k by rw [h1]; exact hd) ha
        | b :: l1, hs =>
          injection hs with h1 h2
          exact ⟨hd, l1, l2, h2, fun e he => hl1 e (by simp [he])⟩

/-- C5: get(id) returns the first stored document whose id matches, and an
absent result exactly when none matches. -/
theorem C5_theorem (s : List (Document T)) (k : Nat) (d : Document T) :
    (Storage.get s k = some d ↔
        d.id = k ∧ ∃ l1 l2, s = l1 ++ d :: l2 ∧ ∀ e ∈ l1, e.id ≠ k) ∧
      (Storage.get s k = none ↔ ∀ e ∈ s, e.id ≠ k) :=
  ⟨get_some_iff s k d, get_none_iff s k⟩

/-- When no stored document carries the id, storage update rebuilds the
same list and reports false. -/
theorem update_not_found (s : List (Document T)) (k : Nat) (c : T) (t : Nat)
    (h : ∀ e ∈ s, e.id ≠ k) : Storage.update s k c t = (s, false) := by
  induction s with
  | nil => rfl
  | cons a s ih =>
    have ha : ¬ a.id = k := h a (by simp)
    simp [Storage.update, ha, ih (fun e he => h e (by simp [he]))]

/-- Storage update reports true exactly when some stored document carries
the id. -/
theorem update_flag_iff (s : List (Document T)) (k : Nat) (c : T) (t : Nat) :
    (Storage.update s k c t).2 = true ↔ ∃ d ∈ s, d.id = k := by
  induction s with
  | nil => simp [Storage.update]
  | cons a s ih =>
    by_cases ha : a.id = k
    · simp [Storage.update, ha]
    · simp [Storage.update, ha, ih]

/-- On a list split at its first document with the id, storage update
rewrites exactly that document and keeps everything else. -/
theorem update_split (l1 : List (Document T)) (d : Document T)
    (l2 : List (Document T)) (k : Nat) (c : T) (t : Nat) (hd : d.id = k)
    (hl1 : ∀ e ∈ l1, e.id ≠ k) :
    Storage.update (l1 ++ d :: l2) k c t = (l1 ++ d.update c t :: l2, true) := by
  induction l1 with
  | nil => simp [Storage.update, hd]
  | cons a l1 ih =>
    have ha : ¬ a.id = k := hl1 a (by simp)
    simp [Storage.update, ha, ih (fun e he => hl1 e (by simp [he]))]

/-- A list holding a document with the id splits at the first such
document: an id-free prefix, the hit, and a suffix. -/
theorem exists_first_split (s : List (Document T)) (k : Nat) :
    (∃ d ∈ s, d.id = k) →
      ∃ l1 d l2, s = l1 ++ d :: l2 ∧ d.id = k ∧ ∀ e ∈ l1, e.id ≠ k := by
  induction s with
  | nil => simp
  | cons a s ih =>
    intro h
    by_cases ha : a.id = k
    · exact ⟨[], a, s, rfl, ha, by simp⟩
    · obtain ⟨d, hd, hdk⟩ := h
      have hmem : d ∈ s := by
        rcases List.mem_cons.mp hd with rfl | hm
        · exact absurd hdk ha
        · exact hm
      obtain ⟨l1, e, l2, rfl, he, hl1⟩ := ih ⟨d, hmem, hdk⟩
      exact ⟨a :: l1, e, l2, rfl, he, by simpa using And.intro ha hl1⟩

/-- C6: storage update succeeds exactly when the id is present; success
replaces the first matching document in place by its Document::update, and
failure leaves the contents exactly as before. -/
theorem C6_theorem (s : List (Document T)) (k : Nat) (c : T) (t : Nat) :
    ((Storage.update s k c t).2 = true ↔ ∃ d ∈ s, d.id = k) ∧
      ((Storage.update s k c t).2 = false → Storage.update s k c t = (s, false)) ∧
      (∀ l1 d l2, s = l1 ++ d :: l2 → d.id = k → (∀ e ∈ l1, e.id ≠ k) →
        Storage.update s k c t = (l1 ++ d.update c t :: l2, true)) := by
  refine ⟨update_flag_iff s k c t, ?_, ?_⟩
  · intro hf
    apply update_not_found
    intro e he hek
    have htr : (Storage.update s k c t).2 = true :=
      (update_flag_iff s k c t).mpr ⟨e, he, hek⟩
    simp [hf] at htr
  · rintro l1 d l2 rfl hd hl1
    exact update_split l1 d l2 k c t hd hl1

/-- C10: a successful storage update keeps the length, rewrites the slot of
the first matching document in place, and leaves every other slot of the
sequence exactly as it was. -/
theorem C10_theorem (s : List (Document T)) (k : Nat) (c : T) (t : Nat)
    (h : (Storage.update s k c t).2 = true) :
    ∃ l1 d l2, s = l1 ++ d :: l2 ∧ d.id = k ∧ (∀ e ∈ l1, e.id ≠ k) ∧
      (Storage.update s k c t).1 = l1 ++ d.update c t :: l2 ∧
      (Storage.update s k c t).1.length = s.length ∧
      (Storage.update s k c t).1[l1.length]? = some (d.update c t) ∧
      ∀ j, j ≠ l1.length → (Storage.update s k c t).1[j]? = s[j]? := by
  obtain ⟨l1, d, l2, rfl, hd, hl1⟩ :=
    exists_first_split s k ((update_flag_iff s k c t).mp h)
  have hu := update_split l1 d l2 k c t hd hl1
  refine ⟨l1, d, l2, rfl, hd, hl1, by rw [hu], by rw [hu]; simp, ?_, ?_⟩
  · rw [hu]
    rw [show (l1 ++ d.update c t :: l2, true).1 = l1 ++ d.update c t :: l2 from rfl]
    rw [List.getElem?_append_right (le_refl l1.length)]
    simp
  · intro j hj
    rw [hu]
    rw [show (l1 ++ d.update c t :: l2, true).1 = l1 ++ d.update c t :: l2 from rfl]
    rcases Nat.lt_or_ge j l1.length with hlt | hge
    · rw [List.getElem?_append_left hlt, List.getElem?_append_left hlt]
    · have hgt : l1.length < j := by omega
      rw [List.getElem?_append_right (by omega), List.getElem?_append_right (by omega)]
      obtain ⟨m, hm⟩ : ∃ m, j - l1.length = m + 1 := ⟨j - l1.length - 1, by omega⟩
      rw [hm]
      simp

/-- position finds no index exactly when no element satisfies the
predicate. -/
theorem positionIdx_none_iff (p : α → Bool) (s : List α) :
    positionIdx p s = none ↔ ∀ e ∈ s, ¬ p e := by
  induction s with
  | nil => simp [positionIdx]
  | cons a l ih => by_cases hpa : p a <;> simp [positionIdx, hpa, ih]

/-- position on a list split at its first hit returns the prefix length. -/
theorem positionIdx_split (p : α → Bool) (l1 : List α) (a : α) (l2 : List α)
    (hpa : p a = true) (hl1 : ∀ e ∈ l1, ¬ p e) :
    positionIdx p (l1 ++ a :: l2) = some l1.length := by
  induction l1 with
  | nil => simp [positionIdx, hpa]
  | cons b l1 ih =>
    have hb : ¬ p b := hl1 b (by simp)
    simp [positionIdx, hb, ih (fun e he => hl1 e (by simp [he]))]

/-- An index position returns is in bounds, so Vec::remove at it cannot
panic. -/
theorem positionIdx_lt_length (p : α → Bool) (s : List α) (i : Nat)
    (h : positionIdx p s = some i) : i < s.length := by
  induction s generalizing i with
  | nil => simp [positionIdx] at h
  | cons a l ih =>
    by_cases hpa : p a
    · simp [positionIdx, hpa] at h
      simp [← h]
    · simp [positionIdx, hpa] at h
      obtain ⟨j, hj, hji⟩ := h
      have := ih j hj
      simp
      omega

/-- Removing the element right after a prefix keeps prefix and suffix. -/
theorem eraseIdx_at_split (l1 : List α) (a : α) (l2 : List α) :
    (l1 ++ a :: l2).eraseIdx l1.length = l1 ++ l2 := by
  induction l1 with
  | nil => rfl
  | cons b l1 ih => simp [List.eraseIdx, ih]

/-- When no stored document carries the id, storage delete leaves the list
as it is and reports false. -/
theorem delete_not_found (s : List (Document T)) (k : Nat)
    (h : ∀ e ∈ s, e.id ≠ k) : Storage.delete s k = (s, false) := by
  have hpos : positionIdx (fun doc => doc.id == k) s = none :=
    (positionIdx_none_iff _ s).mpr (by simpa using h)
  simp [Storage.delete, hpos]

/-- On a list split at its first document with the id, storage delete
removes exactly that document. -/
theorem delete_split (l1 : List (Document T)) (d : Document T)
    (l2 : List (Document T)) (k : Nat) (hd : d.id = k)
    (hl1 : ∀ e ∈ l1, e.id ≠ k) :
    Storage.delete (l1 ++ d :: l2) k = (l1 ++ l2, true) := by
  have hpos := positionIdx_split (fun doc => doc.id == k) l1 d l2
    (by simpa using hd) (by simpa using hl1)
  simp [Storage.delete, hpos, eraseIdx_at_split]

/-- Storage delete reports true exactly when some stored document carries
the id. -/
theorem delete_flag_iff (s : List (Document T)) (k : Nat) :
    (Storage.delete s k).2 = true ↔ ∃ d ∈ s, d.id = k := by
  constructor
  · intro h
    by_contra hno
    push_neg at hno
    rw [delete_not_found s k hno] at h
    simp at h
  · intro h
    obtain ⟨l1, d, l2, rfl, hd, hl1⟩ := exists_first_split s k h
    rw [delete_split l1 d l2 k hd hl1]

/-- C7: delete succeeds exactly when the id is present; success removes
exactly the first matching document and keeps the order of the rest;
after adding one fresh document with id k, delete(k) succeeds once and
afterwards always reports false. -/
theorem C7_theorem (s : List (Document T)) (k : Nat) :
    ((Storage.delete s k).2 = true ↔ ∃ d ∈ s, d.id = k) ∧
      ((Storage.delete s k).2 = false → Storage.delete s k = (s, false)) ∧
      (∀ l1 d l2, s = l1 ++ d :: l2 → d.id = k → (∀ e ∈ l1, e.id ≠ k) →
        Storage.delete s k = (l1 ++ l2, true)) ∧
      (∀ d, d.id = k → (∀ e ∈ s, e.id ≠ k) →
        Storage.delete (Storage.add s d) k = (s, true) ∧
        Storage.delete s k = (s, false)) := by
  refine ⟨delete_flag_iff s k, ?_, ?_, ?_⟩
  · intro hf
    apply delete_not_found
    intro e he hek
    have htr : (Storage.delete s k).2 = true :=
      (delete_flag_iff s k).mpr ⟨e, he, hek⟩
    simp [hf] at htr
  · rintro l1 d l2 rfl hd hl1
    exact delete_split l1 d l2 k hd hl1
  · intro d hd hfresh
    constructor
    · have hadd : Storage.add s d = s ++ d :: [] := rfl
      rw [hadd, delete_split s d [] k hd hfresh]
      simp
    · exact delete_not_found s k hfresh

/-- The checked storage update never panics and agrees with the wrapping
one whenever the affected document — the first one carrying the id, the
one get returns — can still be incremented inside a u32.  Documents other
than the first match never have their increment evaluated, so their
versions are unconstrained. -/
theorem updateChecked_ok (s : List (Document T)) (k : Nat) (c : T) (t : Nat)
    (h : ∀ d, Storage.get s k = some d → d.version + 1 < U32MOD) :
    Storage.updateChecked s k c t = some (Storage.update s k c t) := by
  induction s with
  | nil => rfl
  | cons a s ih =>
    by_cases ha : a.id = k
    · have hget : Storage.get (a :: s) k = some a :=
        List.find?_cons_of_pos _ (by simpa using ha)
      have hv : a.version + 1 < U32MOD := h a hget
      simp [Storage.updateChecked, Storage.update, ha, Document.updateChecked, hv]
    · have hgeteq : Storage.get (a :: s) k = Storage.get s k :=
        List.find?_cons_of_neg _ (by simpa using ha)
      have hr := ih (fun d hd => h d (by rw [hgeteq]; exact hd))
      simp [Storage.updateChecked, Storage.update, ha, hr]

/-- The checked storage delete never panics: position only ever hands
Vec::remove an in-bounds index. -/
theorem deleteChecked_ok (s : List (Document T)) (k : Nat) :
    Storage.deleteChecked s k = some (Storage.delete s k) := by
  rcases hpos : positionIdx (fun doc => doc.id == k) s with _ | i
  · simp [Storage.deleteChecked, Storage.delete, hpos]
  · have hlt := positionIdx_lt_length _ s i hpos
    simp [Storage.deleteChecked, Storage.delete, hpos, removeChecked, hlt]

/-- C3 as written is false: on a document whose version already holds
u32::MAX, the update's increment overflows the u32 counter, so a build
with overflow checks panics (Document::update directly, and
Storage::update through it). -/
theorem C3_counterexample :
    Document.updateChecked docMax "y" 2 = none ∧
      Storage.updateChecked [docMax] 1 "y" 2 = none := by
  constructor <;> rfl

/-- C3 (amended): construct, add and get are total; delete never panics on
any input, including an empty storage, a nonexistent id and a storage
holding a max-version document (position's index is always in bounds for
remove); storage update never panics as long as the affected document —
the first one with the id, the only one whose increment is evaluated —
has version below u32::MAX; and Document::update never panics on any
document with version below u32::MAX.  Only the version increment at
u32::MAX can panic. -/
theorem C3_theorem (s : List (Document T)) (k : Nat) (c : T) (t : Nat) :
    Storage.deleteChecked s k = some (Storage.delete s k) ∧
      ((∀ d, Storage.get s k = some d → d.version + 1 < U32MOD) →
        Storage.updateChecked s k c t = some (Storage.update s k c t)) ∧
      ∀ d : Document T, ∀ c2 : T, ∀ t2 : Nat, d.version + 1 < U32MOD →
        d.updateChecked c2 t2 = some (d.update c2 t2) := by
  refine ⟨deleteChecked_ok s k, fun h => updateChecked_ok s k c t h, ?_⟩
  intro d c2 t2 hv
  simp [Document.updateChecked, hv]

/-- The version after a sequence of updates is the starting version plus
the number of updates, reduced modulo 2^32. -/
theorem applyUpdates_version (us : List (T × Nat)) (d : Document T)
    (hd : d.version < U32MOD) :
    (applyUpdates d us).version = (d.version + us.length) % U32MOD := by
  induction us generalizing d with
  | nil => simp [applyUpdates, Nat.mod_eq_of_lt hd]
  | cons u us ih =>
    have h2 : (d.update u.1 u.2).version < U32MOD := by
      simp only [Document.update]
      exact Nat.mod_lt _ (by decide)
    rw [applyUpdates, ih (d.update u.1 u.2) h2]
    simp only [Document.update, List.length_cons, Nat.mod_add_mod]
    congr 1
    omega

/-- A once-set modified_at stays set across any sequence of updates. -/
theorem applyUpdates_modified_isSome (us : List (T × Nat)) (d : Document T)
    (hd : d.modified_at.isSome) : (applyUpdates d us).modified_at.isSome := by
  induction us generalizing d with
  | nil => exact hd
  | cons u us ih => exact ih (d.update u.1 u.2) (by simp [Document.update])

/-- After at least one update, modified_at is present. -/
theorem applyUpdates_modified_of_cons (us : List (T × Nat)) (d : Document T)
    (h : us ≠ []) : (applyUpdates d us).modified_at ≠ none := by
  match us, h with
  | u :: us2, _ =>
    have hs := applyUpdates_modified_isSome us2 (d.update u.1 u.2)
      (by simp [Document.update])
    rw [show applyUpdates d (u :: us2) = applyUpdates (d.update u.1 u.2) us2 from rfl]
    intro hn
    rw [hn] at hs
    simp at hs

/-- C4 as written is false on the u32 counter: a document reached by
exactly 2^32 updates has version wrapped back to 0 while modified_at is
present. -/
theorem C4_counterexample :
    (applyUpdates (Document.new 1 "c" 0) (List.replicate U32MOD ("c", 5))).version = 0 ∧
      (applyUpdates (Document.new 1 "c" 0) (List.replicate U32MOD ("c", 5))).modified_at ≠
        none := by
  constructor
  · rw [applyUpdates_version (List.replicate U32MOD ("c", 5)) (Document.new 1 "c" 0)
      (by decide)]
    rw [List.length_replicate]
    show (0 + U32MOD) % U32MOD = 0
    rw [Nat.zero_add, Nat.mod_self]
  · apply applyUpdates_modified_of_cons
    intro hnil
    have hlen := congrArg List.length hnil
    rw [List.length_replicate, List.length_nil] at hlen
    exact absurd hlen (by decide)

/-- C4 (amended): for every document reached from the constructor by fewer
than 2^32 updates, modified_at is absent exactly when version is 0. -/
theorem C4_theorem (idv : Nat) (c0 : T) (ca : Nat) (us : List (T × Nat))
    (h : us.length < U32MOD) :
    ((applyUpdates (Document.new idv c0 ca) us).modified_at = none ↔
      (applyUpdates (Document.new idv c0 ca) us).version = 0) := by
  cases us with
  | nil => simp [applyUpdates, Document.new]
  | cons u us2 =>
    have hm := applyUpdates_modified_of_cons (u :: us2) (Document.new idv c0 ca)
      (by simp)
    have hv : (applyUpdates (Document.new idv c0 ca) (u :: us2)).version =
        us2.length + 1 := by
      rw [applyUpdates_version (u :: us2) (Document.new idv c0 ca)
        (show (0:Nat) < U32MOD by decide)]
      show (0 + (us2.length + 1)) % U32MOD = us2.length + 1
      rw [Nat.zero_add]
      exact Nat.mod_eq_of_lt (by simpa using h)
    constructor
    · intro hn
      exact absurd hn hm
    · intro h0
      rw [hv] at h0
      exact absurd h0 (Nat.succ_ne_zero us2.length)

/-- C4 witness: the amended claim after a single update. -/
theorem C4_witness :
    (applyUpdates (Document.new 1 "a" 0) [("b", 7)]).modified_at = none ↔
      (applyUpdates (Document.new 1 "a" 0) [("b", 7)]).version = 0 :=
  C4_theorem 1 "a" 0 [("b", 7)] (by decide)

/-- C10 witness: the frame property at a concrete two-document storage
whose second document is the one updated. -/
theorem C10_witness :
    ∃ l1 d l2,
      [Document.new 2 "a" 0, Document.new 1 "b" 1] = l1 ++ d :: l2 ∧ d.id = 1 ∧
        (∀ e ∈ l1, e.id ≠ 1) ∧
        (Storage.update [Document.new 2 "a" 0, Document.new 1 "b" 1] 1 "c" 9).1 =
          l1 ++ d.update "c" 9 :: l2 ∧
        (Storage.update [Document.new 2 "a" 0, Document.new 1 "b" 1] 1 "c" 9).1.length =
          [Document.new 2 "a" 0, Document.new 1 "b" 1].length ∧
        (Storage.update [Document.new 2 "a" 0, Document.new 1 "b" 1] 1 "c" 9).1[l1.length]? =
          some (d.update "c" 9) ∧
        ∀ j, j ≠ l1.length →
          (Storage.update [Document.new 2 "a" 0, Document.new 1 "b" 1] 1 "c" 9).1[j]? =
            [Document.new 2 "a" 0, Document.new 1 "b" 1][j]? :=
  C10_theorem [Document.new 2 "a" 0, Document.new 1 "b" 1] 1 "c" 9 (by decide)
